import Mathlib

/-!
# Navigation controller of the directory browser (`src/main.py`)

Shallow embedding of the navigation logic of `MainWindow`:
the history list (`self.history`, `self.history_position`), the
directory-change routine `change_directory`, the back/forward/up
intents, the two click handlers, and the button-enablement update.

External collaborators are modelled explicitly:

* The file system is a fixed classification of path strings
  (`Fs.classify`) together with the canonicalisation performed by
  `QDir.absolutePath` (`Fs.normalize`) and the parent computation of
  `QDir.cdUp` (`Fs.parent`).  The file system is held fixed over a run:
  each navigation re-queries the same classification.
* `QDir(path).exists()` is true exactly when the path names an existing
  **directory**: per the Qt documentation, if a plain file of that name
  exists, `QDir.exists` returns `false`.
* `QFileSystemModel.index(path)` is valid exactly when the path exists,
  and `isDir` on that index holds exactly when it is a directory.
* The list view's root index (`file_list_view.rootIndex()`), which holds
  the currently shown directory, is an `Option String`: `none` models
  the initial invalid index, and `fs_model.filePath` of an invalid index
  is the empty string.
* Status-bar messages are modelled by their text (the f-strings of the
  source); the `QLineEdit` address bar by its text.
-/

namespace FileManager

/-- Classification of a path string by the file system: an existing
directory, an existing non-directory entry, or nothing at all. -/
inductive FsStatus
  | dir
  | file
  | missing
deriving DecidableEq, Repr

/-- The external file-system collaborator, fixed during a run.
`normalize` is `QDir(path_string).absolutePath()`; `classify` answers
existence/directory queries on canonical strings; `parent` is
`QDir.cdUp` followed by `absolutePath`, `none` when `cdUp` fails.
`norm_idem` records that canonicalisation is stable: normalising an
already-canonical string returns it unchanged. -/
structure Fs where
  normalize : String → String
  classify : String → FsStatus
  parent : String → Option String
  norm_idem : ∀ p, normalize (normalize p) = normalize p

/-- The navigation-relevant state of `MainWindow`: the history list and
position, the list view's root (the current directory; `none` = invalid
index), the address bar text, the last status-bar message, and the
enabled flags of the back/forward actions. -/
structure State where
  history : List String
  history_position : Int
  listRoot : Option String
  address_bar : String
  status : Option String
  back_enabled : Bool
  forward_enabled : Bool
deriving DecidableEq, Repr

/-- `self.fs_model.filePath(self.file_list_view.rootIndex())`: the path
of the shown directory, or `""` when the root index is invalid. -/
def currentShownPath (s : State) : String :=
  s.listRoot.getD ""

/-- `MainWindow.update_history_buttons_state` (src/main.py:208-210). -/
def update_history_buttons_state (s : State) : State :=
  { s with
    back_enabled := decide (s.history_position > 0),
    forward_enabled := decide (s.history_position < (s.history.length : Int) - 1) }

/-- `MainWindow.change_directory` (src/main.py:106-162).
The branches mirror the source: the early `QDir.exists` check (false
for anything that is not an existing directory), the same-path check
against the shown root, then the `isValid and isDir` / `not isDir and
isValid` / fallback chain on the model index. -/
def change_directory (fs : Fs) (path_string : String) (is_history_navigation : Bool)
    (s : State) : State :=
  if fs.classify (fs.normalize path_string) ≠ FsStatus.dir then
    let s1 := { s with status := some ("Path does not exist: " ++ path_string) }
    if ¬ is_history_navigation then
      { s1 with address_bar := currentShownPath s1 }
    else
      s1
  else
    let normalized_path := fs.normalize path_string
    if s.listRoot = some normalized_path then
      if ¬ is_history_navigation then update_history_buttons_state s else s
    else if fs.classify normalized_path ≠ FsStatus.missing ∧
        fs.classify normalized_path = FsStatus.dir then
      let s1 := { s with listRoot := some normalized_path, address_bar := normalized_path }
      let s2 :=
        if ¬ is_history_navigation then
          let h0 :=
            if s1.history_position < (s1.history.length : Int) - 1 then
              s1.history.take (s1.history_position + 1).toNat
            else
              s1.history
          let h1 :=
            if h0 = [] ∨ h0.getLast? ≠ some normalized_path then
              h0 ++ [normalized_path]
            else
              h0
          { s1 with history := h1, history_position := (h1.length : Int) - 1 }
        else
          s1
      update_history_buttons_state s2
    else if ¬ (fs.classify normalized_path = FsStatus.dir) ∧
        fs.classify normalized_path ≠ FsStatus.missing then
      let s1 := { s with status := some ("Not a directory: " ++ normalized_path) }
      if ¬ is_history_navigation then
        { s1 with address_bar := currentShownPath s1 }
      else
        s1
    else
      let s1 := { s with status := some ("Cannot navigate to: " ++ normalized_path) }
      if ¬ is_history_navigation then
        { s1 with address_bar := currentShownPath s1 }
      else
        s1

/-- The truncation step of a successful fresh navigation
(src/main.py:143-144): drop the forward branch when the position is not
at the end. -/
def visitTrunc (h : List String) (pos : Int) : List String :=
  if pos < (h.length : Int) - 1 then h.take (pos + 1).toNat else h

/-- The history list produced by a successful fresh navigation
(src/main.py:143-148): truncate the forward branch, then append the new
path unless it already equals the last entry. -/
def visitHistory (h : List String) (pos : Int) (np : String) : List String :=
  if visitTrunc h pos = [] ∨ (visitTrunc h pos).getLast? ≠ some np then
    visitTrunc h pos ++ [np]
  else
    visitTrunc h pos

/-- `MainWindow.on_list_view_double_clicked` (src/main.py:165-172):
`p` is the path of the double-clicked index; nothing happens unless the
model says it is a directory. -/
def on_list_view_double_clicked (fs : Fs) (p : String) (s : State) : State :=
  if fs.classify p = FsStatus.dir then
    change_directory fs p false s
  else
    s

/-- `MainWindow.on_tree_view_clicked` (src/main.py:212-219):
`p` is the path of the clicked index. -/
def on_tree_view_clicked (fs : Fs) (p : String) (s : State) : State :=
  if fs.classify p = FsStatus.dir then
    change_directory fs p false s
  else
    s

/-- `MainWindow.on_address_bar_return_pressed` (src/main.py:174-179):
navigates to the text currently in the address bar. -/
def on_address_bar_return_pressed (fs : Fs) (s : State) : State :=
  change_directory fs s.address_bar false s

/-- The user types `text` into the address bar (setting the widget's
text) and presses return. -/
def address_bar_entered (fs : Fs) (text : String) (s : State) : State :=
  on_address_bar_return_pressed fs { s with address_bar := text }

/-- `MainWindow.go_up` (src/main.py:181-194). -/
def go_up (fs : Fs) (s : State) : State :=
  let current_path := currentShownPath s
  match fs.parent current_path with
  | some parent_path => change_directory fs parent_path false s
  | none => { s with status := some ("Cannot go up from: " ++ current_path) }

/-- Python list indexing `h[i]` as used by `go_back`/`go_forward`; the
guards keep `i` in range in every reachable state (a raised IndexError
is out of reach), so the default is never consulted there. -/
def getEntry (h : List String) (i : Int) : String :=
  h.getD i.toNat ""

/-- `MainWindow.go_back` (src/main.py:196-200). -/
def go_back (fs : Fs) (s : State) : State :=
  if s.history_position > 0 then
    let s1 := { s with history_position := s.history_position - 1 }
    change_directory fs (getEntry s1.history s1.history_position) true s1
  else
    s

/-- `MainWindow.go_forward` (src/main.py:202-206). -/
def go_forward (fs : Fs) (s : State) : State :=
  if s.history_position < (s.history.length : Int) - 1 then
    let s1 := { s with history_position := s.history_position + 1 }
    change_directory fs (getEntry s1.history s1.history_position) true s1
  else
    s

/-- `MainWindow.__init__` (src/main.py:87-103): empty history, position
`-1`, invalid root index, then `change_directory(QDir.homePath())`
followed by the initial `update_history_buttons_state` call. -/
def initState (fs : Fs) (home : String) : State :=
  update_history_buttons_state
    (change_directory fs home false
      { history := [], history_position := -1, listRoot := none,
        address_bar := "", status := none,
        back_enabled := true, forward_enabled := true })

/-- The navigation intents of the view layer: a typed address, a
double-click on a list entry, a click on a tree entry, and the three
toolbar actions. -/
inductive Intent
  | addressEntered (text : String)
  | listDoubleClicked (p : String)
  | treeClicked (p : String)
  | upClicked
  | backClicked
  | forwardClicked
deriving DecidableEq, Repr

/-- One intent dispatched through the signal connections of
src/main.py:94-100. -/
def step (fs : Fs) (s : State) : Intent → State
  | Intent.addressEntered text => address_bar_entered fs text s
  | Intent.listDoubleClicked p => on_list_view_double_clicked fs p s
  | Intent.treeClicked p => on_tree_view_clicked fs p s
  | Intent.upClicked => go_up fs s
  | Intent.backClicked => go_back fs s
  | Intent.forwardClicked => go_forward fs s

/-- Run a sequence of intents. -/
def run (fs : Fs) (s : State) (l : List Intent) : State :=
  l.foldl (step fs) s

/-- States reachable from the freshly constructed window by some
sequence of navigation intents. -/
def Reachable (fs : Fs) (home : String) (s : State) : Prop :=
  ∃ l : List Intent, run fs (initState fs home) l = s

/-- The reachable-state invariant: position bounds, position `-1` iff
empty history, no consecutive duplicate entries, every entry a
canonical existing directory, the shown root equal to the entry at the
current position, and the exposed button enablements equal to their
defining formulas. -/
structure Inv (fs : Fs) (s : State) : Prop where
  pos_lb : s.history ≠ [] → 0 ≤ s.history_position
  pos_ub : s.history_position < (s.history.length : Int)
  pos_empty : s.history = [] ↔ s.history_position = -1
  nodup : s.history.Chain' (fun a b => a ≠ b)
  entries_dir : ∀ e ∈ s.history, fs.classify e = FsStatus.dir
  entries_norm : ∀ e ∈ s.history, fs.normalize e = e
  root_eq : s.history ≠ [] → s.listRoot = some (getEntry s.history s.history_position)
  back_ok : s.back_enabled = decide (s.history_position > 0)
  fwd_ok : s.forward_enabled = decide (s.history_position < (s.history.length : Int) - 1)

/-- A small concrete file system for witnesses: five directories, one
plain file, canonicalisation is the identity on these names. -/
def demoFs : Fs where
  normalize := fun p => p
  classify := fun p =>
    if p = "/h" ∨ p = "/a" ∨ p = "/b" ∨ p = "/c" ∨ p = "/d" then FsStatus.dir
    else if p = "/f" then FsStatus.file
    else FsStatus.missing
  parent := fun p => if p = "/a" then some "/h" else none
  norm_idem := fun _ => rfl

/-! ## Basic lemmas -/

@[simp]
theorem update_buttons_history (s : State) :
    (update_history_buttons_state s).history = s.history := rfl

@[simp]
theorem update_buttons_position (s : State) :
    (update_history_buttons_state s).history_position = s.history_position := rfl

@[simp]
theorem update_buttons_listRoot (s : State) :
    (update_history_buttons_state s).listRoot = s.listRoot := rfl

@[simp]
theorem update_buttons_address_bar (s : State) :
    (update_history_buttons_state s).address_bar = s.address_bar := rfl

@[simp]
theorem update_buttons_status (s : State) :
    (update_history_buttons_state s).status = s.status := rfl

@[simp]
theorem update_buttons_back (s : State) :
    (update_history_buttons_state s).back_enabled = decide (s.history_position > 0) := rfl

@[simp]
theorem update_buttons_forward (s : State) :
    (update_history_buttons_state s).forward_enabled =
      decide (s.history_position < (s.history.length : Int) - 1) := rfl

theorem getEntry_eq_get (h : List String) (i : Int) (hi : 0 ≤ i)
    (hlt : i < (h.length : Int)) :
    getEntry h i = h.get ⟨i.toNat, by omega⟩ := by
  have h2 : i.toNat < h.length := by omega
  simp [getEntry, List.getD_eq_getElem?_getD, List.getElem?_eq_getElem h2]

theorem getEntry_mem (h : List String) (i : Int) (hi : 0 ≤ i)
    (hlt : i < (h.length : Int)) :
    getEntry h i ∈ h := by
  rw [getEntry_eq_get h i hi hlt]
  exact List.get_mem h _ _

theorem getEntry_adjacent_ne (h : List String)
    (hc : h.Chain' (fun a b => a ≠ b)) (i : Int) (hi : 0 ≤ i)
    (hlt : i + 1 < (h.length : Int)) :
    getEntry h i ≠ getEntry h (i + 1) := by
  have h1 : i.toNat < h.length - 1 := by omega
  have hne := List.chain'_iff_get.mp hc i.toNat h1
  rw [getEntry_eq_get h i hi (by omega), getEntry_eq_get h (i + 1) (by omega) hlt]
  have ht : (i + 1).toNat = i.toNat + 1 := by omega
  simp only [ht]
  exact hne

theorem getEntry_last (h : List String) (hne : h ≠ []) :
    some (getEntry h ((h.length : Int) - 1)) = h.getLast? := by
  have hlen : 0 < h.length := List.length_pos.mpr hne
  have ht : ((h.length : Int) - 1).toNat = h.length - 1 := by omega
  have h2 : h.length - 1 < h.length := by omega
  rw [List.getLast?_eq_getElem?]
  simp [getEntry, ht, List.getD_eq_getElem?_getD, List.getElem?_eq_getElem h2]

theorem visitTrunc_subset (h : List String) (pos : Int) :
    visitTrunc h pos ⊆ h := by
  unfold visitTrunc
  split
  · exact List.take_subset _ _
  · exact fun x hx => hx

theorem visitTrunc_chain (h : List String) (pos : Int)
    (hc : h.Chain' (fun a b => a ≠ b)) :
    (visitTrunc h pos).Chain' (fun a b => a ≠ b) := by
  unfold visitTrunc
  split
  · exact hc.take _
  · exact hc

theorem visitHistory_ne_nil (h : List String) (pos : Int) (np : String) :
    visitHistory h pos np ≠ [] := by
  unfold visitHistory
  split
  · simp
  · rename_i hg
    push_neg at hg
    exact hg.1

theorem mem_visitHistory (h : List String) (pos : Int) (np : String)
    (e : String) (he : e ∈ visitHistory h pos np) : e ∈ h ∨ e = np := by
  unfold visitHistory at he
  split at he
  · rcases List.mem_append.mp he with h1 | h1
    · exact Or.inl (visitTrunc_subset h pos h1)
    · simp at h1
      exact Or.inr h1
  · exact Or.inl (visitTrunc_subset h pos he)

theorem visitHistory_chain (h : List String) (pos : Int) (np : String)
    (hc : h.Chain' (fun a b => a ≠ b)) :
    (visitHistory h pos np).Chain' (fun a b => a ≠ b) := by
  unfold visitHistory
  split
  · rename_i hg
    rw [List.chain'_append]
    refine ⟨visitTrunc_chain h pos hc, by simp, ?_⟩
    intro x hx y hy
    simp at hy
    subst hy
    rcases hg with hnil | hlast
    · rw [hnil] at hx
      simp at hx
    · intro hxy
      subst hxy
      exact hlast hx
  · exact visitTrunc_chain h pos hc

theorem visitHistory_getLast (h : List String) (pos : Int) (np : String) :
    (visitHistory h pos np).getLast? = some np := by
  unfold visitHistory
  split
  · exact List.getLast?_concat _
  · rename_i hg
    push_neg at hg
    exact hg.2

/-! ## Branch characterizations of `change_directory` -/

theorem cd_notfound (fs : Fs) (p : String) (b : Bool) (s : State)
    (hd : fs.classify (fs.normalize p) ≠ FsStatus.dir) :
    change_directory fs p b s =
      if b then { s with status := some ("Path does not exist: " ++ p) }
      else { s with status := some ("Path does not exist: " ++ p),
                    address_bar := currentShownPath s } := by
  cases b <;> simp [change_directory, currentShownPath, hd]

theorem cd_same (fs : Fs) (p : String) (b : Bool) (s : State)
    (hd : fs.classify (fs.normalize p) = FsStatus.dir)
    (hr : s.listRoot = some (fs.normalize p)) :
    change_directory fs p b s = if b then s else update_history_buttons_state s := by
  cases b <;> simp [change_directory, hd, hr]

theorem cd_dir_hist (fs : Fs) (p : String) (s : State)
    (hd : fs.classify (fs.normalize p) = FsStatus.dir)
    (hr : s.listRoot ≠ some (fs.normalize p)) :
    change_directory fs p true s =
      update_history_buttons_state
        { s with listRoot := some (fs.normalize p), address_bar := fs.normalize p } := by
  simp [change_directory, hd, hr]

theorem cd_dir_fresh (fs : Fs) (p : String) (s : State)
    (hd : fs.classify (fs.normalize p) = FsStatus.dir)
    (hr : s.listRoot ≠ some (fs.normalize p)) :
    change_directory fs p false s =
      update_history_buttons_state
        { s with listRoot := some (fs.normalize p), address_bar := fs.normalize p,
                 history := visitHistory s.history s.history_position (fs.normalize p),
                 history_position :=
                   ((visitHistory s.history s.history_position (fs.normalize p)).length : Int)
                     - 1 } := by
  simp [change_directory, visitHistory, visitTrunc, hd, hr]

theorem go_back_spec (fs : Fs) (s : State)
    (hpos : 0 < s.history_position)
    (hdir : fs.classify (getEntry s.history (s.history_position - 1)) = FsStatus.dir)
    (hnorm : fs.normalize (getEntry s.history (s.history_position - 1)) =
      getEntry s.history (s.history_position - 1))
    (hr : s.listRoot ≠ some (getEntry s.history (s.history_position - 1))) :
    go_back fs s =
      update_history_buttons_state
        { s with history_position := s.history_position - 1,
                 listRoot := some (getEntry s.history (s.history_position - 1)),
                 address_bar := getEntry s.history (s.history_position - 1) } := by
  unfold go_back
  rw [if_pos hpos]
  rw [cd_dir_hist fs (getEntry s.history (s.history_position - 1))
    { s with history_position := s.history_position - 1 }
    (by rw [hnorm]; exact hdir) (by rw [hnorm]; exact hr)]
  rw [hnorm]

theorem go_forward_spec (fs : Fs) (s : State)
    (hpos : s.history_position < (s.history.length : Int) - 1)
    (hdir : fs.classify (getEntry s.history (s.history_position + 1)) = FsStatus.dir)
    (hnorm : fs.normalize (getEntry s.history (s.history_position + 1)) =
      getEntry s.history (s.history_position + 1))
    (hr : s.listRoot ≠ some (getEntry s.history (s.history_position + 1))) :
    go_forward fs s =
      update_history_buttons_state
        { s with history_position := s.history_position + 1,
                 listRoot := some (getEntry s.history (s.history_position + 1)),
                 address_bar := getEntry s.history (s.history_position + 1) } := by
  unfold go_forward
  rw [if_pos hpos]
  rw [cd_dir_hist fs (getEntry s.history (s.history_position + 1))
    { s with history_position := s.history_position + 1 }
    (by rw [hnorm]; exact hdir) (by rw [hnorm]; exact hr)]
  rw [hnorm]

/-! ## Invariant preservation -/

theorem inv_change_fresh (fs : Fs) (p : String) (s : State) (hs : Inv fs s) :
    Inv fs (change_directory fs p false s) := by
  by_cases hd : fs.classify (fs.normalize p) = FsStatus.dir
  · by_cases hr : s.listRoot = some (fs.normalize p)
    · rw [cd_same fs p false s hd hr, if_neg (by decide : ¬((false : Bool) = true))]
      exact ⟨hs.pos_lb, hs.pos_ub, hs.pos_empty, hs.nodup, hs.entries_dir,
        hs.entries_norm, hs.root_eq, rfl, rfl⟩
    · rw [cd_dir_fresh fs p s hd hr]
      have hne := visitHistory_ne_nil s.history s.history_position (fs.normalize p)
      have hlen : 0 < (visitHistory s.history s.history_position (fs.normalize p)).length :=
        List.length_pos.mpr hne
      refine ⟨?_, ?_, ?_, ?_, ?_, ?_, ?_, rfl, rfl⟩
      · intro _
        show (0 : Int) ≤ _ - 1
        omega
      · simp only [update_buttons_position, update_buttons_history]
        omega
      · constructor
        · intro h
          exact absurd h hne
        · intro h
          simp only [update_buttons_position] at h
          exact absurd hlen (by omega)
      · exact visitHistory_chain _ _ _ hs.nodup
      · intro e he
        rcases mem_visitHistory _ _ _ e he with h | h
        · exact hs.entries_dir e h
        · rw [h]
          exact hd
      · intro e he
        rcases mem_visitHistory _ _ _ e he with h | h
        · exact hs.entries_norm e h
        · rw [h]
          exact fs.norm_idem p
      · intro _
        have h1 := getEntry_last _ hne
        rw [visitHistory_getLast] at h1
        exact h1.symm
  · rw [cd_notfound fs p false s hd, if_neg (by decide : ¬((false : Bool) = true))]
    exact ⟨hs.pos_lb, hs.pos_ub, hs.pos_empty, hs.nodup, hs.entries_dir,
      hs.entries_norm, hs.root_eq, hs.back_ok, hs.fwd_ok⟩

theorem inv_go_back (fs : Fs) (s : State) (hs : Inv fs s) : Inv fs (go_back fs s) := by
  by_cases hpos : 0 < s.history_position
  · have hne : s.history ≠ [] := by
      intro hnil
      have := hs.pos_empty.mp hnil
      omega
    have hub := hs.pos_ub
    have hmem : getEntry s.history (s.history_position - 1) ∈ s.history :=
      getEntry_mem _ _ (by omega) (by omega)
    have hdir := hs.entries_dir _ hmem
    have hnorm := hs.entries_norm _ hmem
    have hadj : getEntry s.history (s.history_position - 1) ≠
        getEntry s.history s.history_position := by
      have h := getEntry_adjacent_ne s.history hs.nodup (s.history_position - 1)
        (by omega) (by omega)
      have h2 : s.history_position - 1 + 1 = s.history_position := by omega
      rwa [h2] at h
    have hr : s.listRoot ≠ some (getEntry s.history (s.history_position - 1)) := by
      rw [hs.root_eq hne]
      intro hc
      simp only [Option.some.injEq] at hc
      exact hadj hc.symm
    rw [go_back_spec fs s hpos hdir hnorm hr]
    refine ⟨?_, ?_, ?_, hs.nodup, hs.entries_dir, hs.entries_norm, ?_, rfl, rfl⟩
    · intro _
      show (0 : Int) ≤ s.history_position - 1
      omega
    · simp only [update_buttons_position, update_buttons_history]
      omega
    · constructor
      · intro h
        exact absurd h hne
      · intro h
        have : s.history_position - 1 = -1 := h
        exact absurd hpos (by omega)
    · intro _
      rfl
  · unfold go_back
    rw [if_neg hpos]
    exact hs

theorem inv_go_forward (fs : Fs) (s : State) (hs : Inv fs s) : Inv fs (go_forward fs s) := by
  by_cases hpos : s.history_position < (s.history.length : Int) - 1
  · have hne : s.history ≠ [] := by
      intro hnil
      have h1 := hs.pos_empty.mp hnil
      rw [hnil] at hpos
      simp at hpos
      omega
    have hlb := hs.pos_lb hne
    have hub := hs.pos_ub
    have hmem : getEntry s.history (s.history_position + 1) ∈ s.history :=
      getEntry_mem _ _ (by omega) (by omega)
    have hdir := hs.entries_dir _ hmem
    have hnorm := hs.entries_norm _ hmem
    have hadj : getEntry s.history s.history_position ≠
        getEntry s.history (s.history_position + 1) :=
      getEntry_adjacent_ne s.history hs.nodup s.history_position hlb (by omega)
    have hr : s.listRoot ≠ some (getEntry s.history (s.history_position + 1)) := by
      rw [hs.root_eq hne]
      intro hc
      simp only [Option.some.injEq] at hc
      exact hadj hc
    rw [go_forward_spec fs s hpos hdir hnorm hr]
    refine ⟨?_, ?_, ?_, hs.nodup, hs.entries_dir, hs.entries_norm, ?_, rfl, rfl⟩
    · intro _
      show (0 : Int) ≤ s.history_position + 1
      omega
    · simp only [update_buttons_position, update_buttons_history]
      omega
    · constructor
      · intro h
        exact absurd h hne
      · intro h
        have : s.history_position + 1 = -1 := h
        exact absurd hlb (by omega)
    · intro _
      rfl
  · unfold go_forward
    rw [if_neg hpos]
    exact hs

theorem inv_go_up (fs : Fs) (s : State) (hs : Inv fs s) : Inv fs (go_up fs s) := by
  rcases hq : fs.parent (currentShownPath s) with _ | q
  · simp only [go_up, hq]
    exact ⟨hs.pos_lb, hs.pos_ub, hs.pos_empty, hs.nodup, hs.entries_dir,
      hs.entries_norm, hs.root_eq, hs.back_ok, hs.fwd_ok⟩
  · simp only [go_up, hq]
    exact inv_change_fresh fs q s hs

theorem inv_list_click (fs : Fs) (p : String) (s : State) (hs : Inv fs s) :
    Inv fs (on_list_view_double_clicked fs p s) := by
  unfold on_list_view_double_clicked
  split
  · exact inv_change_fresh fs p s hs
  · exact hs

theorem inv_tree_click (fs : Fs) (p : String) (s : State) (hs : Inv fs s) :
    Inv fs (on_tree_view_clicked fs p s) := by
  unfold on_tree_view_clicked
  split
  · exact inv_change_fresh fs p s hs
  · exact hs

theorem inv_address (fs : Fs) (text : String) (s : State) (hs : Inv fs s) :
    Inv fs (address_bar_entered fs text s) := by
  unfold address_bar_entered on_address_bar_return_pressed
  exact inv_change_fresh fs _ _ ⟨hs.pos_lb, hs.pos_ub, hs.pos_empty, hs.nodup,
    hs.entries_dir, hs.entries_norm, hs.root_eq, hs.back_ok, hs.fwd_ok⟩

theorem inv_step (fs : Fs) (s : State) (hs : Inv fs s) (i : Intent) :
    Inv fs (step fs s i) := by
  cases i with
  | addressEntered t => exact inv_address fs t s hs
  | listDoubleClicked p => exact inv_list_click fs p s hs
  | treeClicked p => exact inv_tree_click fs p s hs
  | upClicked => exact inv_go_up fs s hs
  | backClicked => exact inv_go_back fs s hs
  | forwardClicked => exact inv_go_forward fs s hs

theorem inv_init (fs : Fs) (home : String) : Inv fs (initState fs home) := by
  unfold initState
  by_cases hd : fs.classify (fs.normalize home) = FsStatus.dir
  · rw [cd_dir_fresh fs home _ hd (by simp)]
    have hv : visitHistory ([] : List String) (-1) (fs.normalize home) =
        [fs.normalize home] := by
      simp [visitHistory, visitTrunc]
    rw [hv]
    refine ⟨?_, ?_, ?_, ?_, ?_, ?_, ?_, rfl, rfl⟩
    · intro _
      show (0 : Int) ≤ ([fs.normalize home].length : Int) - 1
      simp
    · show ([fs.normalize home].length : Int) - 1 < _
      simp
    · simp
    · simp
    · intro e he
      simp at he
      rw [he]
      exact hd
    · intro e he
      simp at he
      rw [he]
      exact fs.norm_idem home
    · intro _
      show some (fs.normalize home) = some (getEntry [fs.normalize home] _)
      simp [getEntry]
  · rw [cd_notfound fs home false _ hd, if_neg (by decide : ¬((false : Bool) = true))]
    refine ⟨?_, ?_, ?_, ?_, ?_, ?_, ?_, rfl, rfl⟩
    · intro h
      exact absurd rfl h
    · show (-1 : Int) < (0 : Int)
      decide
    · simp
    · simp
    · intro e he
      simp at he
    · intro e he
      simp at he
    · intro h
      exact absurd rfl h

theorem inv_run (fs : Fs) (l : List Intent) (s : State) (hs : Inv fs s) :
    Inv fs (run fs s l) := by
  induction l generalizing s with
  | nil => exact hs
  | cons i t ih => exact ih _ (inv_step fs s hs i)

theorem inv_reachable (fs : Fs) (home : String) (s : State)
    (h : Reachable fs home s) : Inv fs s := by
  obtain ⟨l, rfl⟩ := h
  exact inv_run fs l _ (inv_init fs home)

theorem cd_hist_preserves_history (fs : Fs) (p : String) (s : State) :
    (change_directory fs p true s).history = s.history := by
  by_cases hd : fs.classify (fs.normalize p) = FsStatus.dir
  · by_cases hr : s.listRoot = some (fs.normalize p)
    · rw [cd_same fs p true s hd hr, if_pos rfl]
    · rw [cd_dir_hist fs p s hd hr]
      rfl
  · rw [cd_notfound fs p true s hd, if_pos rfl]

theorem back_then_forward (fs : Fs) (s : State) (hs : Inv fs s)
    (hpos : 0 < s.history_position) :
    go_forward fs (go_back fs s) =
      update_history_buttons_state
        { s with listRoot := some (getEntry s.history s.history_position),
                 address_bar := getEntry s.history s.history_position } := by
  have hne : s.history ≠ [] := by
    intro hnil
    have := hs.pos_empty.mp hnil
    omega
  have hub := hs.pos_ub
  have hmem1 : getEntry s.history (s.history_position - 1) ∈ s.history :=
    getEntry_mem _ _ (by omega) (by omega)
  have hdir1 := hs.entries_dir _ hmem1
  have hnorm1 := hs.entries_norm _ hmem1
  have hadj : getEntry s.history (s.history_position - 1) ≠
      getEntry s.history s.history_position := by
    have h2 := getEntry_adjacent_ne s.history hs.nodup (s.history_position - 1)
      (by omega) (by omega)
    have h3 : s.history_position - 1 + 1 = s.history_position := by omega
    rwa [h3] at h2
  have hr1 : s.listRoot ≠ some (getEntry s.history (s.history_position - 1)) := by
    rw [hs.root_eq hne]
    intro hc
    simp only [Option.some.injEq] at hc
    exact hadj hc.symm
  rw [go_back_spec fs s hpos hdir1 hnorm1 hr1]
  have hstep : s.history_position - 1 + 1 = s.history_position := by omega
  have hmem2 : getEntry s.history s.history_position ∈ s.history :=
    getEntry_mem _ _ (by omega) (by omega)
  have hdir2 := hs.entries_dir _ hmem2
  have hnorm2 := hs.entries_norm _ hmem2
  have hfwd := go_forward_spec fs
    (update_history_buttons_state
      { s with history_position := s.history_position - 1,
               listRoot := some (getEntry s.history (s.history_position - 1)),
               address_bar := getEntry s.history (s.history_position - 1) })
    (by simp only [update_buttons_position, update_buttons_history]; omega)
    (by simp only [update_buttons_position, update_buttons_history]
        rw [hstep]; exact hdir2)
    (by simp only [update_buttons_position, update_buttons_history]
        rw [hstep]; exact hnorm2)
    (by simp only [update_buttons_position, update_buttons_history,
          update_buttons_listRoot]
        rw [hstep]
        intro hc
        simp only [Option.some.injEq] at hc
        exact hadj hc)
  rw [hfwd]
  simp [update_history_buttons_state, hstep]

/-! ## The claims -/

/-- C1: Branch truncation.  From history `[a, b, c]` at position 2,
two `go_back` steps reach position 0 with the entries unchanged; a
subsequent fresh `change_directory` to a valid directory `d ≠ a`
produces entries `[a, d]` with position 1, discarding `b` and `c`. -/
theorem C1_branch_truncation (fs : Fs) (a b c d addr : String) (st : Option String)
    (be fe : Bool)
    (hna : fs.normalize a = a) (hnb : fs.normalize b = b) (hnc : fs.normalize c = c)
    (hnd : fs.normalize d = d)
    (hda : fs.classify a = FsStatus.dir) (hdb : fs.classify b = FsStatus.dir)
    (hdc : fs.classify c = FsStatus.dir) (hdd : fs.classify d = FsStatus.dir)
    (hab : a ≠ b) (hbc : b ≠ c) (hd_a : d ≠ a) :
    let s0 : State := { history := [a, b, c], history_position := 2, listRoot := some c,
                        address_bar := addr, status := st, back_enabled := be,
                        forward_enabled := fe }
    (go_back fs (go_back fs s0)).history_position = 0 ∧
    (go_back fs (go_back fs s0)).history = [a, b, c] ∧
    (change_directory fs d false (go_back fs (go_back fs s0))).history = [a, d] ∧
    (change_directory fs d false (go_back fs (go_back fs s0))).history_position = 1 := by
  intro s0
  simp only [s0]
  simp [go_back, change_directory, update_history_buttons_state, getEntry, currentShownPath,
        visitHistory, visitTrunc,
        hna, hnb, hnc, hnd, hda, hdb, hdc, hdd,
        Ne.symm hab, Ne.symm hbc, Ne.symm hd_a, hab, hbc, hd_a]

theorem C1_branch_truncation_witness :
    let s0 : State := { history := ["/a", "/b", "/c"], history_position := 2,
                        listRoot := some "/c", address_bar := "", status := none,
                        back_enabled := true, forward_enabled := false }
    (go_back demoFs (go_back demoFs s0)).history_position = 0 ∧
    (go_back demoFs (go_back demoFs s0)).history = ["/a", "/b", "/c"] ∧
    (change_directory demoFs "/d" false (go_back demoFs (go_back demoFs s0))).history =
      ["/a", "/d"] ∧
    (change_directory demoFs "/d" false
      (go_back demoFs (go_back demoFs s0))).history_position = 1 :=
  C1_branch_truncation demoFs "/a" "/b" "/c" "/d" "" none true false
    rfl rfl rfl rfl (by decide) (by decide) (by decide) (by decide)
    (by decide) (by decide) (by decide)

/-- C2: Enablement correctness.  In every reachable state — after any
sequence of transitions, successful or failed — the exposed back
enablement equals `position > 0` and the exposed forward enablement
equals `position < length entries - 1`. -/
theorem C2_enablement_correctness (fs : Fs) (home : String) (s : State)
    (h : Reachable fs home s) :
    s.back_enabled = decide (s.history_position > 0) ∧
    s.forward_enabled = decide (s.history_position < (s.history.length : Int) - 1) := by
  have hs := inv_reachable fs home s h
  exact ⟨hs.back_ok, hs.fwd_ok⟩

theorem C2_enablement_correctness_witness :
    (run demoFs (initState demoFs "/h")
        [Intent.addressEntered "/a", Intent.addressEntered "/nope"]).back_enabled =
      decide ((run demoFs (initState demoFs "/h")
        [Intent.addressEntered "/a", Intent.addressEntered "/nope"]).history_position > 0) ∧
    (run demoFs (initState demoFs "/h")
        [Intent.addressEntered "/a", Intent.addressEntered "/nope"]).forward_enabled =
      decide ((run demoFs (initState demoFs "/h")
        [Intent.addressEntered "/a", Intent.addressEntered "/nope"]).history_position <
        ((run demoFs (initState demoFs "/h")
          [Intent.addressEntered "/a", Intent.addressEntered "/nope"]).history.length : Int)
          - 1) :=
  C2_enablement_correctness demoFs "/h" _
    ⟨[Intent.addressEntered "/a", Intent.addressEntered "/nope"], rfl⟩

/-- C3: the claim says an existing non-directory path gets the distinct
"Not a directory" message.  The code's early `QDir.exists` check is
false for a plain file, so such a path is reported with the
"Path does not exist" message instead, while the address display
reverts and history, position and current directory stay unchanged:
evaluated here on the file `/f` from the home state. -/
theorem C3_file_path_reports_not_found :
    (change_directory demoFs "/f" false (initState demoFs "/h")).status =
      some ("Path does not exist: " ++ "/f") ∧
    (change_directory demoFs "/f" false (initState demoFs "/h")).status ≠
      some ("Not a directory: " ++ "/f") ∧
    (change_directory demoFs "/f" false (initState demoFs "/h")).history =
      (initState demoFs "/h").history ∧
    (change_directory demoFs "/f" false (initState demoFs "/h")).history_position =
      (initState demoFs "/h").history_position ∧
    (change_directory demoFs "/f" false (initState demoFs "/h")).listRoot =
      (initState demoFs "/h").listRoot ∧
    (change_directory demoFs "/f" false (initState demoFs "/h")).address_bar =
      currentShownPath (initState demoFs "/h") ∧
    demoFs.classify "/f" = FsStatus.file := by
  decide

/-- C4: Idempotence of revisit.  For every state and every path whose
canonical form equals the currently shown directory, a fresh
`change_directory` leaves entries, position, and the current directory
unchanged. -/
theorem C4_idempotent_revisit (fs : Fs) (p : String) (s : State)
    (hr : s.listRoot = some (fs.normalize p)) :
    (change_directory fs p false s).history = s.history ∧
    (change_directory fs p false s).history_position = s.history_position ∧
    (change_directory fs p false s).listRoot = s.listRoot := by
  by_cases hd : fs.classify (fs.normalize p) = FsStatus.dir
  · rw [cd_same fs p false s hd hr, if_neg (by decide : ¬((false : Bool) = true))]
    exact ⟨rfl, rfl, rfl⟩
  · rw [cd_notfound fs p false s hd, if_neg (by decide : ¬((false : Bool) = true))]
    exact ⟨rfl, rfl, rfl⟩

theorem C4_idempotent_revisit_witness :
    (change_directory demoFs "/h" false (initState demoFs "/h")).history =
      (initState demoFs "/h").history ∧
    (change_directory demoFs "/h" false (initState demoFs "/h")).history_position =
      (initState demoFs "/h").history_position ∧
    (change_directory demoFs "/h" false (initState demoFs "/h")).listRoot =
      (initState demoFs "/h").listRoot :=
  C4_idempotent_revisit demoFs "/h" (initState demoFs "/h") (by decide)

/-- C5: Replay never mutates the stored path sequence: for every state,
`go_back` and `go_forward` leave the entries list unchanged — no
truncation, no append. -/
theorem C5_replay_preserves_entries (fs : Fs) (s : State) :
    (go_back fs s).history = s.history ∧ (go_forward fs s).history = s.history := by
  constructor
  · unfold go_back
    split
    · exact cd_hist_preserves_history fs _ _
    · rfl
  · unfold go_forward
    split
    · exact cd_hist_preserves_history fs _ _
    · rfl

/-- C6: Atomicity on not-found.  For every state, a fresh
`change_directory` to a nonexistent path reports the not-found message,
and leaves current directory, entries and position unchanged, with the
address display reverted to the current directory. -/
theorem C6_notfound_atomic (fs : Fs) (p : String) (s : State)
    (hmiss : fs.classify (fs.normalize p) = FsStatus.missing) :
    (change_directory fs p false s).status = some ("Path does not exist: " ++ p) ∧
    (change_directory fs p false s).listRoot = s.listRoot ∧
    (change_directory fs p false s).history = s.history ∧
    (change_directory fs p false s).history_position = s.history_position ∧
    (change_directory fs p false s).address_bar = currentShownPath s := by
  have hd : fs.classify (fs.normalize p) ≠ FsStatus.dir := by
    rw [hmiss]
    decide
  rw [cd_notfound fs p false s hd, if_neg (by decide : ¬((false : Bool) = true))]
  exact ⟨rfl, rfl, rfl, rfl, rfl⟩

theorem C6_notfound_atomic_witness :
    (change_directory demoFs "/nope" false (initState demoFs "/h")).status =
      some ("Path does not exist: " ++ "/nope") ∧
    (change_directory demoFs "/nope" false (initState demoFs "/h")).listRoot =
      (initState demoFs "/h").listRoot ∧
    (change_directory demoFs "/nope" false (initState demoFs "/h")).history =
      (initState demoFs "/h").history ∧
    (change_directory demoFs "/nope" false (initState demoFs "/h")).history_position =
      (initState demoFs "/h").history_position ∧
    (change_directory demoFs "/nope" false (initState demoFs "/h")).address_bar =
      currentShownPath (initState demoFs "/h") :=
  C6_notfound_atomic demoFs "/nope" (initState demoFs "/h") (by decide)

/-- C7: No consecutive duplicates: in every reachable state, no two
adjacent history entries are equal. -/
theorem C7_no_consecutive_duplicates (fs : Fs) (home : String) (s : State)
    (h : Reachable fs home s) :
    s.history.Chain' (fun a b => a ≠ b) :=
  (inv_reachable fs home s h).nodup

theorem C7_no_consecutive_duplicates_witness :
    (run demoFs (initState demoFs "/h")
      [Intent.addressEntered "/a", Intent.addressEntered "/b",
       Intent.backClicked, Intent.addressEntered "/a"]).history.Chain'
      (fun a b => a ≠ b) :=
  C7_no_consecutive_duplicates demoFs "/h" _
    ⟨[Intent.addressEntered "/a", Intent.addressEntered "/b",
      Intent.backClicked, Intent.addressEntered "/a"], rfl⟩

/-- C8: Position bounds: in every reachable state,
`0 ≤ position < length entries` whenever the history is non-empty, and
`position = -1` exactly when it is empty. -/
theorem C8_position_bounds (fs : Fs) (home : String) (s : State)
    (h : Reachable fs home s) :
    (s.history ≠ [] → 0 ≤ s.history_position ∧
      s.history_position < (s.history.length : Int)) ∧
    (s.history_position = -1 ↔ s.history = []) := by
  have hs := inv_reachable fs home s h
  constructor
  · exact fun hne => ⟨hs.pos_lb hne, hs.pos_ub⟩
  · constructor
    · intro hp
      by_contra hne
      have := hs.pos_lb hne
      omega
    · exact hs.pos_empty.mp

theorem C8_position_bounds_witness :
    ((run demoFs (initState demoFs "/h") [Intent.addressEntered "/a"]).history ≠ [] →
      0 ≤ (run demoFs (initState demoFs "/h") [Intent.addressEntered "/a"]).history_position ∧
      (run demoFs (initState demoFs "/h") [Intent.addressEntered "/a"]).history_position <
        ((run demoFs (initState demoFs "/h") [Intent.addressEntered "/a"]).history.length :
          Int)) ∧
    ((run demoFs (initState demoFs "/h") [Intent.addressEntered "/a"]).history_position = -1 ↔
      (run demoFs (initState demoFs "/h") [Intent.addressEntered "/a"]).history = []) :=
  C8_position_bounds demoFs "/h" _ ⟨[Intent.addressEntered "/a"], rfl⟩

/-- C9: Back/forward symmetry: from every reachable state with the back
action enabled, `go_forward` right after `go_back` restores the prior
current directory and both enablement flags. -/
theorem C9_back_forward_symmetry (fs : Fs) (home : String) (s : State)
    (h : Reachable fs home s) (hb : s.back_enabled = true) :
    (go_forward fs (go_back fs s)).listRoot = s.listRoot ∧
    (go_forward fs (go_back fs s)).back_enabled = s.back_enabled ∧
    (go_forward fs (go_back fs s)).forward_enabled = s.forward_enabled := by
  have hs := inv_reachable fs home s h
  have hpos : 0 < s.history_position := by
    have hb2 := hs.back_ok
    rw [hb] at hb2
    exact of_decide_eq_true hb2.symm
  have hne : s.history ≠ [] := by
    intro hnil
    have := hs.pos_empty.mp hnil
    omega
  rw [back_then_forward fs s hs hpos]
  refine ⟨?_, ?_, ?_⟩
  · exact (hs.root_eq hne).symm
  · exact hs.back_ok.symm
  · exact hs.fwd_ok.symm

theorem C9_back_forward_symmetry_witness :
    (go_forward demoFs (go_back demoFs
        (run demoFs (initState demoFs "/h") [Intent.addressEntered "/a"]))).listRoot =
      (run demoFs (initState demoFs "/h") [Intent.addressEntered "/a"]).listRoot ∧
    (go_forward demoFs (go_back demoFs
        (run demoFs (initState demoFs "/h") [Intent.addressEntered "/a"]))).back_enabled =
      (run demoFs (initState demoFs "/h") [Intent.addressEntered "/a"]).back_enabled ∧
    (go_forward demoFs (go_back demoFs
        (run demoFs (initState demoFs "/h") [Intent.addressEntered "/a"]))).forward_enabled =
      (run demoFs (initState demoFs "/h") [Intent.addressEntered "/a"]).forward_enabled :=
  C9_back_forward_symmetry demoFs "/h" _
    ⟨[Intent.addressEntered "/a"], rfl⟩ (by decide)

/-- C10: a double-click on a list entry or a click on a tree entry that
is not a directory is a complete silent no-op: the whole state — history,
position, current directory, address bar, enablement, status message —
is returned unchanged; by contrast a typed non-directory path does
produce a failure message. -/
theorem C10_nondir_click_noop (fs : Fs) (p : String) (s : State)
    (hnd : ¬ fs.classify p = FsStatus.dir)
    (hnd2 : fs.classify (fs.normalize p) ≠ FsStatus.dir) :
    on_list_view_double_clicked fs p s = s ∧
    on_tree_view_clicked fs p s = s ∧
    (address_bar_entered fs p s).status = some ("Path does not exist: " ++ p) := by
  refine ⟨?_, ?_, ?_⟩
  · unfold on_list_view_double_clicked
    rw [if_neg hnd]
  · unfold on_tree_view_clicked
    rw [if_neg hnd]
  · unfold address_bar_entered on_address_bar_return_pressed
    rw [cd_notfound fs p false _ hnd2, if_neg (by decide : ¬((false : Bool) = true))]

theorem C10_nondir_click_noop_witness :
    on_list_view_double_clicked demoFs "/f" (initState demoFs "/h") =
      initState demoFs "/h" ∧
    on_tree_view_clicked demoFs "/f" (initState demoFs "/h") = initState demoFs "/h" ∧
    (address_bar_entered demoFs "/f" (initState demoFs "/h")).status =
      some ("Path does not exist: " ++ "/f") :=
  C10_nondir_click_noop demoFs "/f" (initState demoFs "/h") (by decide) (by decide)

end FileManager
